import Mathlib

/-!
# Verification of the basic-calculator arithmetic engine

Shallow embedding of `src/calculator_frontend/src/components/Calculator.jsx`.
The calculator state (`currentValue`, `previousValue`, `operator`, `overwrite`,
`error`) and each input handler (`onDigit`, `onDecimal`, `onOperator`,
`onEquals`, `onBackspace`, `onClear`) are translated directly from the source.

JavaScript numbers are modelled by exact fractions (`JsNum`, an integer
numerator over a positive natural denominator, not kept in lowest terms).
All arithmetic exercised by the verified properties involves small
terminating decimals, where IEEE-754 double arithmetic and its
shortest-round-trip rendering agree with the exact rational result, so the
fraction model is faithful on every value these theorems touch.  String
primitives (`includes`, `startsWith`, `endsWith`, `slice`, `length`) are
modelled on the underlying character list.
-/

/-! ## String helpers (JS string primitives on the character list) -/

/-- JS `str.includes(c)` for a single character. -/
def jsIncludes (s : String) (c : Char) : Bool := s.data.contains c

/-- JS `str.startsWith(p)`. -/
def jsStartsWith (s p : String) : Bool := List.isPrefixOf p.data s.data

/-- JS `str.endsWith(p)`. -/
def jsEndsWith (s p : String) : Bool := List.isSuffixOf p.data s.data

/-- JS `str.length`. -/
def jsLength (s : String) : Nat := s.data.length

/-- Number of decimal points in a string. -/
def dotCount (s : String) : Nat := s.data.count '.'

/-- The character for decimal digit `k % 10`. -/
def digitChar (k : Nat) : Char := Char.ofNat (48 + k % 10)

/-! ## Numeric model: JS numbers as exact fractions -/

/-- A JS number value, as an exact fraction: integer numerator over a (always
positive in practice) natural denominator, not necessarily reduced. -/
structure JsNum where
  num : Int
  den : Nat
deriving DecidableEq, Repr

/-- Negation. -/
def JsNum.neg (a : JsNum) : JsNum := ⟨-a.num, a.den⟩

/-- Addition. -/
def JsNum.add (a b : JsNum) : JsNum :=
  ⟨a.num * b.den + b.num * a.den, a.den * b.den⟩

/-- Subtraction. -/
def JsNum.sub (a b : JsNum) : JsNum :=
  ⟨a.num * b.den - b.num * a.den, a.den * b.den⟩

/-- Multiplication. -/
def JsNum.mul (a b : JsNum) : JsNum := ⟨a.num * b.num, a.den * b.den⟩

/-- Division (the divisor is nonzero whenever the program divides). -/
def JsNum.div (a b : JsNum) : JsNum :=
  if 0 ≤ b.num then ⟨a.num * b.den, a.den * b.num.toNat⟩
  else ⟨-(a.num * b.den), a.den * (-b.num).toNat⟩

/-- The comparison `x === 0`. -/
def JsNum.isZero (a : JsNum) : Bool := a.num = 0

/-- Multiply by `10 ^ e` for an integer exponent `e`. -/
def JsNum.scale10 (a : JsNum) : Int → JsNum
  | .ofNat k => ⟨a.num * 10 ^ k, a.den⟩
  | .negSucc k => ⟨a.num, a.den * 10 ^ (k + 1)⟩

/-- Value of a list of decimal digit characters (most significant first). -/
def digitsVal (l : List Char) : Nat :=
  l.foldl (fun acc c => 10 * acc + (c.toNat - 48)) 0

/-- The value `ip.fp` of an integer digit part and a fraction digit part. -/
def decimalValue (ip fp : List Char) : JsNum :=
  ⟨(digitsVal ip : Int) * 10 ^ fp.length + (digitsVal fp : Int), 10 ^ fp.length⟩

/-- Exponent part of JS `parseFloat`: optional sign then digits; if the digits
are missing the exponent is ignored (JS `parseFloat("1e")` is `1`). -/
def parseFloatExp (cs : List Char) : Int :=
  let p := match cs with
    | '-' :: r => (true, r)
    | '+' :: r => (false, r)
    | _ => (false, cs)
  let ds := p.2.takeWhile Char.isDigit
  if ds = [] then 0 else (if p.1 then -1 else 1) * (digitsVal ds : Int)

/-- JS `parseFloat`: skip leading whitespace, parse an optional sign, digits
with an optional fraction, and an optional exponent, ignoring any trailing
junk; `none` models `NaN` (no digits at all).  `Infinity` and special forms
are omitted: no string reaching `parseFloat` in this program contains them. -/
def parseFloat (str : String) : Option JsNum :=
  let cs := str.data.dropWhile Char.isWhitespace
  let sp := match cs with
    | '-' :: r => (true, r)
    | '+' :: r => (false, r)
    | _ => (false, cs)
  let ip := sp.2.takeWhile Char.isDigit
  let cs2 := sp.2.dropWhile Char.isDigit
  let fp := match cs2 with
    | '.' :: r => (r.takeWhile Char.isDigit, r.dropWhile Char.isDigit)
    | _ => ([], cs2)
  if ip = [] ∧ fp.1 = [] then none
  else
    let mant := decimalValue ip fp.1
    let e : Int := match fp.2 with
      | 'e' :: r => parseFloatExp r
      | 'E' :: r => parseFloatExp r
      | _ => 0
    some (if sp.1 then (mant.scale10 e).neg else mant.scale10 e)

/-- Strict exponent part of JS `Number(...)`: sign, at least one digit,
nothing left over. -/
def numberExp (q : JsNum) (cs : List Char) : Option JsNum :=
  let p := match cs with
    | '-' :: r => (true, r)
    | '+' :: r => (false, r)
    | _ => (false, cs)
  let ds := p.2.takeWhile Char.isDigit
  let rest := p.2.dropWhile Char.isDigit
  if ds = [] ∨ rest ≠ [] then none
  else some (q.scale10 ((if p.1 then -1 else 1) * (digitsVal ds : Int)))

/-- JS `Number(str)`: whole-string numeric conversion.  Whitespace-only is `0`;
otherwise sign, digits and/or fraction, optional well-formed exponent, and the
whole string must be consumed; `none` models `NaN`.  Hex/octal/binary literals
and `Infinity` are omitted: the strings this program converts consist of
digits, `.`, `-` and `e` only. -/
def jsNumber (str : String) : Option JsNum :=
  let cs := ((str.data.dropWhile Char.isWhitespace).reverse.dropWhile
      Char.isWhitespace).reverse
  if cs = [] then some ⟨0, 1⟩
  else
    let sp := match cs with
      | '-' :: r => (true, r)
      | '+' :: r => (false, r)
      | _ => (false, cs)
    let ip := sp.2.takeWhile Char.isDigit
    let cs2 := sp.2.dropWhile Char.isDigit
    let fp := match cs2 with
      | '.' :: r => (r.takeWhile Char.isDigit, r.dropWhile Char.isDigit)
      | _ => ([], cs2)
    if ip = [] ∧ fp.1 = [] then none
    else
      let q := decimalValue ip fp.1
      let q := if sp.1 then q.neg else q
      match fp.2 with
      | [] => some q
      | 'e' :: r => numberExp q r
      | 'E' :: r => numberExp q r
      | _ => none

/-- Decimal digit characters of `n`, most significant first (`fuel` bounds the
recursion; `fuel = n + 1` always suffices). -/
def natDigits : Nat → Nat → List Char
  | 0, _ => []
  | fuel + 1, n =>
    if n < 10 then [digitChar n]
    else natDigits fuel (n / 10) ++ [digitChar n]

/-- Decimal string of a natural number. -/
def natToString (n : Nat) : String := String.mk (natDigits (n + 1) n)

/-- Decimal expansion digits of the fraction `r / d` (`r < d`), up to `fuel`
digits, stopping when the expansion terminates. -/
def fracDigits : Nat → Nat → Nat → List Char
  | 0, _, _ => []
  | fuel + 1, r, d =>
    if r = 0 then []
    else digitChar (r * 10 / d) :: fracDigits fuel (r * 10 % d) d

/-- JS `String(x)` for a number, on the fraction model: sign, integer part,
and the decimal expansion of the fractional part.  Exact for terminating
decimals (all values reached in the verified claims); non-terminating
expansions are cut at 100 digits, and the exponent forms JS uses for
magnitudes outside `[1e-6, 1e21)` are not produced. -/
def numToString (q : JsNum) : String :=
  let sign := if q.num < 0 then "-" else ""
  let n := q.num.natAbs
  let d := q.den
  if n % d = 0 then sign ++ natToString (n / d)
  else sign ++ natToString (n / d) ++ "." ++ String.mk (fracDigits 100 (n % d) d)

/-- JS `String(Number(str))`. -/
def jsNumberToString (str : String) : String :=
  match jsNumber str with
  | some q => numToString q
  | none => "NaN"

/-! ## Display formatting helpers -/

/-- Number of decimal digits of `n` (`fuel`-bounded). -/
def numDigitsAux : Nat → Nat → Nat
  | 0, _ => 1
  | fuel + 1, n => if n < 10 then 1 else 1 + numDigitsAux fuel (n / 10)

/-- Number of decimal digits of a natural number. -/
def natNumDigits (n : Nat) : Nat := numDigitsAux n n

/-- Smallest `k ≥ 1` with `n * 10 ^ k ≥ d`, for `0 < n < d` (`fuel`-bounded). -/
def scaleUpAux : Nat → Nat → Nat → Nat
  | 0, _, _ => 1
  | fuel + 1, n, d => if n * 10 ≥ d then 1 else 1 + scaleUpAux fuel (n * 10) d

/-- Base-10 exponent of `n / d` (the `e` with `10^e ≤ n/d < 10^(e+1)`). -/
def ratExp10 (n d : Nat) : Int :=
  if n ≥ d then (natNumDigits (n / d) : Int) - 1
  else -(scaleUpAux d n d : Int)

/-- JS `num.toPrecision(10)` on the fraction model: round to 10 significant
digits (ties away from zero, as the JS spec picks the larger candidate) and
format in fixed notation, or exponential notation when the base-10 exponent
is below `-7` or at least `10`. -/
def toPrecision10 (q : JsNum) : String :=
  if q.num = 0 then "0.000000000"
  else
    let sign := if q.num < 0 then "-" else ""
    let n := q.num.natAbs
    let d := q.den
    let e0 : Int := ratExp10 n d
    let t : Int := 9 - e0
    let p := match t with
      | .ofNat k => (n * 10 ^ k, d)
      | .negSucc k => (n, d * 10 ^ (k + 1))
    let m0 := (2 * p.1 + p.2) / (2 * p.2)
    let m := if m0 ≥ 10 ^ 10 then m0 / 10 else m0
    let e : Int := if m0 ≥ 10 ^ 10 then e0 + 1 else e0
    let ds := natDigits (m + 1) m
    if e < -7 ∨ e ≥ 10 then
      sign ++ String.mk (ds.take 1) ++ "." ++ String.mk (ds.drop 1) ++ "e" ++
        (if e < 0 then "-" else "+") ++ natToString e.natAbs
    else
      match e with
      | .ofNat k =>
        if ds.drop (k + 1) = [] then sign ++ String.mk ds
        else sign ++ String.mk (ds.take (k + 1)) ++ "." ++ String.mk (ds.drop (k + 1))
      | .negSucc k =>
        sign ++ "0." ++ String.mk (List.replicate k '0') ++ String.mk ds

/-- The regex replacement `.replace(/\.?0+$/, "")`: if the string ends in one
or more `'0'`s, strip that run together with a directly preceding `'.'`. -/
def applyTrimRegex (s : String) : String :=
  match s.data.reverse with
  | '0' :: _ =>
    let rest := s.data.reverse.dropWhile (fun c => c = '0')
    let rest2 := match rest with
      | '.' :: r => r
      | _ => rest
    String.mk rest2.reverse
  | _ => s

/-! ## The calculator state machine (from `Calculator.jsx`) -/

/-- The React component state: `currentValue`, `previousValue`, `operator`,
`overwrite`, `error`. -/
structure CalcState where
  currentValue : String
  previousValue : Option String
  operator : Option String
  overwrite : Bool
  error : Bool
deriving DecidableEq, Repr

/-- `resetAll`: every field back to its `useState` initial value. -/
def resetAll : CalcState :=
  { currentValue := "0", previousValue := none, operator := none,
    overwrite := false, error := false }

/-- The initial state (the `useState` defaults). -/
def initState : CalcState := resetAll

/-- `sanitizeNumberString`: trim leading zeros unless the string is `"0"` or a
decimal like `"0.xxx"`; the trimming is JS `String(Number(str))`. -/
def sanitizeNumberString (str : String) : String :=
  if str = "" then "0"
  else if str = "0" then "0"
  else if jsStartsWith str "0" ∧ ¬jsStartsWith str "0." ∧ jsLength str > 1 then
    jsNumberToString str
  else str

/-- `compute(aStr, bStr, op)`: parse both operands (`NaN` on either gives
`"0"`), apply the operator, render the result; `"Error"` on division by zero;
an unknown operator returns `bStr`. -/
def compute (aStr bStr : String) (op : String) : String :=
  match parseFloat aStr, parseFloat bStr with
  | some a, some b =>
    if op = "+" then numToString (a.add b)
    else if op = "-" then numToString (a.sub b)
    else if op = "×" then numToString (a.mul b)
    else if op = "÷" then
      if b.isZero then "Error" else numToString (a.div b)
    else bStr
  | _, _ => "0"

/-- The string shown for a digit key `d` (JS `String(d)`). -/
def digitToString (d : Fin 10) : String := String.mk [digitChar d.val]

/-- `onClear`. -/
def onClear (_s : CalcState) : CalcState := resetAll

/-- `onBackspace`. -/
def onBackspace (s : CalcState) : CalcState :=
  if s.error then resetAll
  else if s.overwrite then { s with currentValue := "0", overwrite := false }
  else
    { s with currentValue :=
        if jsLength s.currentValue ≤ 1 then "0"
        else
          let next := String.mk s.currentValue.data.dropLast
          if next = "-" then "0" else next }

/-- `onDigit(d)`. -/
def onDigit (d : Fin 10) (s : CalcState) : CalcState :=
  if s.error then
    { currentValue := digitToString d, previousValue := none, operator := none,
      overwrite := false, error := false }
  else if s.overwrite then
    { s with currentValue := digitToString d, overwrite := false }
  else
    let next := if s.currentValue = "0" then digitToString d
                else s.currentValue ++ digitToString d
    { s with currentValue := sanitizeNumberString next }

/-- `onDecimal`. -/
def onDecimal (s : CalcState) : CalcState :=
  if s.error then
    { currentValue := "0.", previousValue := none, operator := none,
      overwrite := false, error := false }
  else if s.overwrite then
    { s with currentValue := "0.", overwrite := false }
  else if jsIncludes s.currentValue '.' then s
  else { s with currentValue := s.currentValue ++ "." }

/-- `onOperator(op)`: ignored while errored; chains the pending computation
when a second operand has been entered (`!overwrite`); otherwise saves the
current entry; always records the new operator and primes overwrite. -/
def onOperator (op : String) (s : CalcState) : CalcState :=
  if s.error then s
  else
    match s.previousValue, s.operator with
    | some prev, some curOp =>
      if s.overwrite then
        { s with previousValue := some s.currentValue, operator := some op,
                 overwrite := true }
      else
        let result := compute prev s.currentValue curOp
        if result = "Error" then
          { currentValue := "Error", previousValue := none, operator := none,
            overwrite := true, error := true }
        else
          { s with currentValue := result, previousValue := some result,
                   operator := some op, overwrite := true }
    | _, _ =>
      { s with previousValue := some s.currentValue, operator := some op,
               overwrite := true }

/-- `onEquals`: reset while errored; otherwise compute the pending operation
if one is fully set, entering the error state on division by zero. -/
def onEquals (s : CalcState) : CalcState :=
  if s.error then resetAll
  else
    match s.previousValue, s.operator with
    | some prev, some op =>
      let result := compute prev s.currentValue op
      if result = "Error" then
        { currentValue := "Error", previousValue := none, operator := none,
          overwrite := true, error := true }
      else
        { s with currentValue := result, previousValue := none,
                 operator := none, overwrite := true }
    | _, _ => s

/-- The derived `displayValue` memo: the error marker, a mid-entry value
ending in `.` verbatim, or the sanitized entry, reformatted at reduced
precision when longer than 14 characters and numeric. -/
def displayValue (s : CalcState) : String :=
  if s.error then "Error"
  else if jsEndsWith s.currentValue "." then s.currentValue
  else
    let val := sanitizeNumberString s.currentValue
    if jsLength val > 14 then
      match jsNumber val with
      | some q => applyTrimRegex (toPrecision10 q)
      | none => val
    else val

/-! ## Abstract input symbols and runs -/

/-- One abstract input symbol, as supplied by the keypad or keyboard mapper. -/
inductive Input where
  | digit (d : Fin 10)
  | decimal
  | op (o : String)
  | equals
  | backspace
  | clear
deriving DecidableEq, Repr

/-- Dispatch one input symbol to its handler. -/
def step (i : Input) (s : CalcState) : CalcState :=
  match i with
  | .digit d => onDigit d s
  | .decimal => onDecimal s
  | .op o => onOperator o s
  | .equals => onEquals s
  | .backspace => onBackspace s
  | .clear => onClear s

/-- Apply a list of input symbols in order. -/
def runInputs : List Input → CalcState → CalcState
  | [], s => s
  | i :: l, s => runInputs l (step i s)

/-- A state reachable from the initial state by some input sequence. -/
def Reachable (s : CalcState) : Prop :=
  ∃ l : List Input, runInputs l initState = s

/-! ## Helper lemmas -/

theorem digitChar_ne_dot (k : Nat) : digitChar k ≠ '.' := by
  have h : ∀ m, m < 10 → Char.ofNat (48 + m) ≠ '.' := by decide
  exact h (k % 10) (Nat.mod_lt _ (by omega))

theorem natDigits_no_dot (fuel n : Nat) : '.' ∉ natDigits fuel n := by
  induction fuel generalizing n with
  | zero => simp [natDigits]
  | succ f ih =>
    simp only [natDigits]
    split
    · intro h
      exact digitChar_ne_dot n (List.mem_singleton.mp h).symm
    · intro h
      rcases List.mem_append.mp h with h1 | h1
      · exact ih _ h1
      · exact digitChar_ne_dot n (List.mem_singleton.mp h1).symm

theorem fracDigits_no_dot (fuel r d : Nat) : '.' ∉ fracDigits fuel r d := by
  induction fuel generalizing r with
  | zero => simp [fracDigits]
  | succ f ih =>
    simp only [fracDigits]
    split
    · simp
    · intro h
      rcases List.mem_cons.mp h with h1 | h1
      · exact digitChar_ne_dot _ h1.symm
      · exact ih _ h1

theorem dotCount_append (s t : String) :
    dotCount (s ++ t) = dotCount s + dotCount t := by
  simp [dotCount, String.data_append, List.count_append]

theorem dotCount_natToString (n : Nat) : dotCount (natToString n) = 0 :=
  List.count_eq_zero.mpr (natDigits_no_dot _ _)

theorem dotCount_numToString (q : JsNum) : dotCount (numToString q) ≤ 1 := by
  have h1 : dotCount "." = 1 := by decide
  have h2 : dotCount (String.mk (fracDigits 100 (q.num.natAbs % q.den) q.den)) = 0 :=
    List.count_eq_zero.mpr (fracDigits_no_dot _ _ _)
  have h3 := dotCount_natToString (q.num.natAbs / q.den)
  have h4 : dotCount "-" = 0 := by decide
  have h5 : dotCount "" = 0 := by decide
  by_cases hneg : q.num < 0 <;> by_cases hmod : q.num.natAbs % q.den = 0 <;>
    simp [numToString, hneg, hmod, dotCount_append, h1, h2, h3, h4, h5]

theorem dotCount_sanitizeNumberString (str : String) (h : dotCount str ≤ 1) :
    dotCount (sanitizeNumberString str) ≤ 1 := by
  unfold sanitizeNumberString
  split
  · decide
  · split
    · decide
    · split
      · unfold jsNumberToString
        cases hq : jsNumber str
        · simp only [hq]; decide
        · simp only [hq]; exact dotCount_numToString _
      · exact h

theorem dotCount_digitToString (d : Fin 10) : dotCount (digitToString d) = 0 := by
  have h : ∀ d : Fin 10, dotCount (digitToString d) = 0 := by decide
  exact h d

/-! ## The pending-operand/pending-operator invariant -/

/-- `previousValue` and `operator` are both set or both unset. -/
def PendingInv (s : CalcState) : Prop :=
  s.previousValue = none ↔ s.operator = none

theorem pendingInv_onDigit (d : Fin 10) (s : CalcState) (h : PendingInv s) :
    PendingInv (onDigit d s) := by
  rcases s with ⟨cur, prev, pop, ow, err⟩
  cases err <;> cases ow <;> simp_all [onDigit, PendingInv]

theorem pendingInv_onDecimal (s : CalcState) (h : PendingInv s) :
    PendingInv (onDecimal s) := by
  rcases s with ⟨cur, prev, pop, ow, err⟩
  cases err
  case true => simp_all [onDecimal, PendingInv]
  case false =>
    cases ow
    case false =>
      by_cases hc : jsIncludes cur '.' = true <;>
        simp_all [onDecimal, PendingInv]
    case true => simp_all [onDecimal, PendingInv]

theorem pendingInv_onBackspace (s : CalcState) (h : PendingInv s) :
    PendingInv (onBackspace s) := by
  rcases s with ⟨cur, prev, pop, ow, err⟩
  cases err <;> cases ow <;> simp_all [onBackspace, PendingInv, resetAll]

theorem pendingInv_onClear (s : CalcState) (_h : PendingInv s) :
    PendingInv (onClear s) := by
  simp [onClear, PendingInv, resetAll]

theorem pendingInv_onOperator (op : String) (s : CalcState) (h : PendingInv s) :
    PendingInv (onOperator op s) := by
  rcases s with ⟨cur, prev, pop, ow, err⟩
  cases err
  case true => simpa [onOperator] using h
  case false =>
    rcases prev with _ | pv <;> rcases pop with _ | po
    · simp [onOperator, PendingInv]
    · simp [PendingInv] at h
    · simp [PendingInv] at h
    · cases ow
      · simp only [onOperator]
        norm_num
        split <;> simp [PendingInv]
      · simp [onOperator, PendingInv]

theorem pendingInv_onEquals (s : CalcState) (h : PendingInv s) :
    PendingInv (onEquals s) := by
  rcases s with ⟨cur, prev, pop, ow, err⟩
  cases err
  case true => simp [onEquals, PendingInv, resetAll]
  case false =>
    rcases prev with _ | pv <;> rcases pop with _ | po
    · simpa [onEquals] using h
    · simp [PendingInv] at h
    · simp [PendingInv] at h
    · simp only [onEquals]
      norm_num
      split <;> simp [PendingInv]

theorem pendingInv_step (i : Input) (s : CalcState) (h : PendingInv s) :
    PendingInv (step i s) := by
  cases i with
  | digit d => exact pendingInv_onDigit d s h
  | decimal => exact pendingInv_onDecimal s h
  | op o => exact pendingInv_onOperator o s h
  | equals => exact pendingInv_onEquals s h
  | backspace => exact pendingInv_onBackspace s h
  | clear => exact pendingInv_onClear s h

theorem pendingInv_run (l : List Input) (s : CalcState) (h : PendingInv s) :
    PendingInv (runInputs l s) := by
  induction l generalizing s with
  | nil => exact h
  | cons i l ih => exact ih _ (pendingInv_step i s h)

/-! ## The decimal-point invariant for digit/decimal entry -/

/-- Digit and decimal-point inputs. -/
def isEntryInput : Input → Bool
  | .digit _ => true
  | .decimal => true
  | _ => false

/-- Invariant maintained along runs made only of digit/decimal inputs: the
machine stays in plain entry mode and the entry has at most one point. -/
def EntryInv (s : CalcState) : Prop :=
  s.error = false ∧ s.overwrite = false ∧ dotCount s.currentValue ≤ 1

theorem entryInv_step (i : Input) (hi : isEntryInput i = true) (s : CalcState)
    (h : EntryInv s) : EntryInv (step i s) := by
  rcases s with ⟨cur, prev, pop, ow, err⟩
  obtain ⟨he, how, hdot0⟩ := h
  have he' : err = false := he
  have how' : ow = false := how
  have hdot : dotCount cur ≤ 1 := hdot0
  subst he'; subst how'
  cases i with
  | digit d =>
    refine ⟨rfl, rfl, ?_⟩
    show dotCount (sanitizeNumberString _) ≤ 1
    apply dotCount_sanitizeNumberString
    split
    · rw [dotCount_digitToString]
      omega
    · rw [dotCount_append, dotCount_digitToString]
      omega
  | decimal =>
    by_cases hc : jsIncludes cur '.' = true
    · show EntryInv (onDecimal _)
      simp only [onDecimal, hc]
      norm_num
      exact ⟨rfl, rfl, hdot⟩
    · show EntryInv (onDecimal _)
      simp only [onDecimal, Bool.not_eq_true] at hc ⊢
      simp only [hc]
      norm_num
      refine ⟨rfl, rfl, ?_⟩
      show dotCount (cur ++ ".") ≤ 1
      rw [dotCount_append]
      have h0 : dotCount cur = 0 := by
        apply List.count_eq_zero.mpr
        intro hm
        rw [show jsIncludes cur '.' = cur.data.elem '.' from rfl] at hc
        rw [List.elem_iff.mpr hm] at hc
        exact Bool.true_eq_false.mp hc
      have h1 : dotCount "." = 1 := by decide
      omega
  | op o => simp [isEntryInput] at hi
  | equals => simp [isEntryInput] at hi
  | backspace => simp [isEntryInput] at hi
  | clear => simp [isEntryInput] at hi

theorem entryInv_run (l : List Input) (h : ∀ i ∈ l, isEntryInput i = true)
    (s : CalcState) (hs : EntryInv s) : EntryInv (runInputs l s) := by
  induction l generalizing s with
  | nil => exact hs
  | cons i l ih =>
    exact ih (fun j hj => h j (List.mem_cons_of_mem _ hj)) _
      (entryInv_step i (h i (List.mem_cons_self _ _)) s hs)

/-! ## Claims -/

/-- Claim C1 (counterexample): in the reachable errored state produced by
`5 ÷ 0 =`, pressing Equals does not leave the state unchanged — it resets
everything to the initial values. -/
theorem errored_equals_not_noop_counterexample :
    (runInputs [.digit 5, .op "÷", .digit 0, .equals] initState).error = true ∧
    onEquals (runInputs [.digit 5, .op "÷", .digit 0, .equals] initState) ≠
      runInputs [.digit 5, .op "÷", .digit 0, .equals] initState := by
  decide

/-- Claim C1 (amended): for every reachable state in which errored is true,
applying any of the four operators leaves the state unchanged, while applying
Equals resets all fields to their initial values (equivalent to Clear) rather
than leaving the state unchanged. -/
theorem errored_operator_noop_equals_resets (s : CalcState) (op : String)
    (_hr : Reachable s) (_hop : op ∈ (["+", "-", "×", "÷"] : List String))
    (h : s.error = true) :
    onOperator op s = s ∧ onEquals s = initState := by
  constructor
  · simp [onOperator, h]
  · simp [onEquals, h, initState]

theorem errored_operator_noop_equals_resets_witness :
    onOperator "+" (runInputs [.digit 5, .op "÷", .digit 0, .equals] initState) =
      runInputs [.digit 5, .op "÷", .digit 0, .equals] initState ∧
    onEquals (runInputs [.digit 5, .op "÷", .digit 0, .equals] initState) =
      initState :=
  errored_operator_noop_equals_resets _ "+"
    ⟨[.digit 5, .op "÷", .digit 0, .equals], rfl⟩ (by decide) (by decide)

/-- Claim C2: while errored, Equals resets every field to its initial value
(`currentEntry = "0"`, no pending operand or operator, overwrite and errored
cleared) — exactly the effect of Clear. -/
theorem errored_equals_full_reset (s : CalcState) (h : s.error = true) :
    onEquals s = { currentValue := "0", previousValue := none, operator := none,
                   overwrite := false, error := false } ∧
    onEquals s = onClear s := by
  constructor
  · simp [onEquals, h, resetAll]
  · simp [onEquals, onClear, h]

theorem errored_equals_full_reset_witness :
    onEquals ⟨"Error", none, none, true, true⟩ =
      { currentValue := "0", previousValue := none, operator := none,
        overwrite := false, error := false } ∧
    onEquals ⟨"Error", none, none, true, true⟩ =
      onClear ⟨"Error", none, none, true, true⟩ :=
  errored_equals_full_reset _ rfl

/-- Claim C3: from the initial state, `2 + 3 × 4 =` evaluates strictly left to
right: the intermediate result 5 appears (as entry and pending operand) the
moment the second operator is pressed, and the final entry is "20". -/
theorem chain_left_to_right_no_precedence :
    (runInputs [.digit 2, .op "+", .digit 3, .op "×"] initState).currentValue = "5" ∧
    (runInputs [.digit 2, .op "+", .digit 3, .op "×"] initState).previousValue =
      some "5" ∧
    (runInputs [.digit 2, .op "+", .digit 3, .op "×", .digit 4, .equals]
        initState).currentValue = "20" := by
  decide

/-- Claim C4: from a state with entry "5" and no pending operator, the inputs
`÷ 0 =` produce the error state (with the error marker displayed), and a
following digit 1 clears the error and sets the entry to "1". -/
theorem divide_by_zero_then_digit (s : CalcState) (h1 : s.error = false)
    (h2 : s.operator = none) (h3 : s.currentValue = "5") :
    (onEquals (onDigit 0 (onOperator "÷" s))).error = true ∧
    displayValue (onEquals (onDigit 0 (onOperator "÷" s))) = "Error" ∧
    (onDigit 1 (onEquals (onDigit 0 (onOperator "÷" s)))).error = false ∧
    (onDigit 1 (onEquals (onDigit 0 (onOperator "÷" s)))).currentValue = "1" := by
  rcases s with ⟨cur, prev, pop, ow, err⟩
  have h1' : err = false := h1
  have h2' : pop = none := h2
  have h3' : cur = "5" := h3
  subst h1' h2' h3'
  rcases prev with _ | pv
  · exact ⟨rfl, rfl, rfl, rfl⟩
  · exact ⟨rfl, rfl, rfl, rfl⟩

theorem divide_by_zero_then_digit_witness :
    (onEquals (onDigit 0 (onOperator "÷" ⟨"5", none, none, false, false⟩))).error =
      true ∧
    displayValue (onEquals (onDigit 0 (onOperator "÷"
      ⟨"5", none, none, false, false⟩))) = "Error" ∧
    (onDigit 1 (onEquals (onDigit 0 (onOperator "÷"
      ⟨"5", none, none, false, false⟩)))).error = false ∧
    (onDigit 1 (onEquals (onDigit 0 (onOperator "÷"
      ⟨"5", none, none, false, false⟩)))).currentValue = "1" :=
  divide_by_zero_then_digit ⟨"5", none, none, false, false⟩ rfl rfl rfl

/-- Claim C5: in every reachable state the pending operator is set exactly when
the pending operand is set, and every single operation preserves this
invariant from any state satisfying it. -/
theorem pending_pair_invariant :
    (∀ s : CalcState, Reachable s → PendingInv s) ∧
    (∀ (i : Input) (s : CalcState), PendingInv s → PendingInv (step i s)) := by
  constructor
  · rintro s ⟨l, rfl⟩
    exact pendingInv_run l initState (by simp [PendingInv, initState, resetAll])
  · exact pendingInv_step

theorem pending_pair_invariant_witness : PendingInv initState :=
  pending_pair_invariant.1 initState ⟨[], rfl⟩

/-- Claim C6: along every sequence of digit/decimal inputs from the initial
state the entry never holds more than one decimal point, and the decimal key
is a no-op once the entry contains a point. -/
theorem single_decimal_point (l : List Input)
    (h : ∀ i ∈ l, isEntryInput i = true) :
    dotCount (runInputs l initState).currentValue ≤ 1 ∧
    (jsIncludes (runInputs l initState).currentValue '.' = true →
      onDecimal (runInputs l initState) = runInputs l initState) := by
  have main : EntryInv (runInputs l initState) :=
    entryInv_run l h initState ⟨rfl, rfl, by decide⟩
  obtain ⟨he, how, hdot⟩ := main
  refine ⟨hdot, fun hc => ?_⟩
  simp [onDecimal, he, how, hc]

theorem single_decimal_point_witness :
    dotCount (runInputs [Input.digit 1, Input.decimal]
      initState).currentValue ≤ 1 ∧
    (jsIncludes (runInputs [Input.digit 1, Input.decimal]
        initState).currentValue '.' = true →
      onDecimal (runInputs [Input.digit 1, Input.decimal] initState) =
        runInputs [Input.digit 1, Input.decimal] initState) :=
  single_decimal_point [.digit 1, .decimal] (by decide)

/-- Claim C7 (counterexample): the non-errored state with entry "01e14" (five
characters, not ending in a point) displays the reduced-precision
"1.000000000e+14", not the normalized entry "100000000000000": the
14-character test is applied to the normalized string, which can be longer
than the entry itself. -/
theorem display_roundtrip_counterexample :
    ((⟨"01e14", none, none, false, false⟩ : CalcState).error = false) ∧
    jsEndsWith (⟨"01e14", none, none, false, false⟩ : CalcState).currentValue "."
      = false ∧
    jsLength (⟨"01e14", none, none, false, false⟩ : CalcState).currentValue ≤ 14 ∧
    displayValue ⟨"01e14", none, none, false, false⟩ ≠
      sanitizeNumberString
        (⟨"01e14", none, none, false, false⟩ : CalcState).currentValue := by
  decide

/-- Claim C7 (amended): for every non-errored state whose entry does not end in
a decimal point and whose leading-zero-normalized entry is at most 14
characters, DisplayValue is exactly the normalized entry (the
reduced-precision reformatting applies only when the normalized string
exceeds the 14-character threshold). -/
theorem display_roundtrip (s : CalcState) (h1 : s.error = false)
    (h2 : jsEndsWith s.currentValue "." = false)
    (h3 : jsLength (sanitizeNumberString s.currentValue) ≤ 14) :
    displayValue s = sanitizeNumberString s.currentValue := by
  simp only [displayValue, h1, h2, Bool.false_eq_true, if_false]
  rw [if_neg (by omega)]

theorem display_roundtrip_witness :
    displayValue ⟨"5", none, none, false, false⟩ =
      sanitizeNumberString (⟨"5", none, none, false, false⟩ : CalcState).currentValue :=
  display_roundtrip _ rfl (by decide) (by decide)

/-- Claim C8 (counterexample): from the non-errored state reached by `5 ÷ 0`
(entry "0", pending operand "5" and operator ÷), the first Equals produces the
error state and the second Equals then resets it, so the second press is not a
no-op. -/
theorem equals_idempotent_counterexample :
    ((⟨"0", some "5", some "÷", false, false⟩ : CalcState).error = false) ∧
    onEquals (onEquals ⟨"0", some "5", some "÷", false, false⟩) ≠
      onEquals ⟨"0", some "5", some "÷", false, false⟩ := by
  decide

/-- Claim C8 (amended): for every non-errored state whose Equals result is not
the error state, a second Equals with no intervening input is a no-op (the
first press clears the pending operand and operator). -/
theorem equals_idempotent (s : CalcState) (h1 : s.error = false)
    (h2 : (onEquals s).error = false) :
    onEquals (onEquals s) = onEquals s := by
  rcases s with ⟨cur, prev, pop, ow, err⟩
  have h1' : err = false := h1
  subst h1'
  rcases prev with _ | pv <;> rcases pop with _ | po
  · rfl
  · rfl
  · rfl
  · by_cases hr : compute pv cur po = "Error"
    · exfalso
      simp [onEquals, hr] at h2
    · have hstep : onEquals ⟨cur, some pv, some po, ow, false⟩ =
          ⟨compute pv cur po, none, none, true, false⟩ := by
        simp [onEquals, hr]
      rw [hstep]
      rfl

theorem equals_idempotent_witness :
    onEquals (onEquals initState) = onEquals initState :=
  equals_idempotent initState rfl rfl

/-- Claim C9: in the non-error case, Digit, Decimal and Backspace leave the
pending operand and pending operator untouched. -/
theorem entry_frame (s : CalcState) (d : Fin 10) (h : s.error = false) :
    ((onDigit d s).previousValue = s.previousValue ∧
      (onDigit d s).operator = s.operator) ∧
    ((onDecimal s).previousValue = s.previousValue ∧
      (onDecimal s).operator = s.operator) ∧
    ((onBackspace s).previousValue = s.previousValue ∧
      (onBackspace s).operator = s.operator) := by
  rcases s with ⟨cur, prev, pop, ow, err⟩
  have h' : err = false := h
  subst h'
  cases ow
  case false =>
    refine ⟨⟨rfl, rfl⟩, ?_, ⟨rfl, rfl⟩⟩
    by_cases hc : jsIncludes cur '.' = true <;> simp [onDecimal, hc]
  case true =>
    exact ⟨⟨rfl, rfl⟩, ⟨rfl, rfl⟩, ⟨rfl, rfl⟩⟩

theorem entry_frame_witness :
    ((onDigit 0 initState).previousValue = initState.previousValue ∧
      (onDigit 0 initState).operator = initState.operator) ∧
    ((onDecimal initState).previousValue = initState.previousValue ∧
      (onDecimal initState).operator = initState.operator) ∧
    ((onBackspace initState).previousValue = initState.previousValue ∧
      (onBackspace initState).operator = initState.operator) :=
  entry_frame initState 0 rfl

/-- Claim C10: compute is total by construction (it returns a string for all
inputs); when either operand fails to parse it returns "0", and when both
operands parse but the operator is not one of the four symbols it returns the
second operand string unchanged. -/
theorem compute_total (aStr bStr op : String) :
    ((parseFloat aStr = none ∨ parseFloat bStr = none) →
      compute aStr bStr op = "0") ∧
    (∀ a b : JsNum, parseFloat aStr = some a → parseFloat bStr = some b →
      op ∉ (["+", "-", "×", "÷"] : List String) → compute aStr bStr op = bStr) := by
  constructor
  · intro h
    unfold compute
    cases ha : parseFloat aStr <;> cases hb : parseFloat bStr <;> simp_all
  · intro a b ha hb hop
    simp only [List.mem_cons, List.not_mem_nil, or_false] at hop
    push_neg at hop
    obtain ⟨n1, n2, n3, n4⟩ := hop
    unfold compute
    rw [ha, hb]
    dsimp only
    rw [if_neg n1, if_neg n2, if_neg n3, if_neg n4]

theorem compute_total_witness :
    compute "x" "y" "+" = "0" ∧ compute "1" "2" "%" = "2" :=
  ⟨(compute_total "x" "y" "+").1 (Or.inl (by decide)),
   (compute_total "1" "2" "%").2 ⟨1, 1⟩ ⟨2, 1⟩ (by decide) (by decide) (by decide)⟩
